import Mathlib

/-
Verification of the recch database-workbench core (src/src-tauri/src/lib.rs):
the per-cell value normalizer of execute_query (MySQL and PostgreSQL paths),
the Redis script tokenizer/executor of execute_query, the alter_table DDL
builder, and the get_tables metadata conversion.

Modelling conventions:
- serde_json::Value is modelled by `Json`; JSON numbers are exact (serde_json
  stores i64/u64 exactly), so integer payloads are carried as `Int`.  IEEE
  double payloads are modelled as rationals (every finite double is a
  rational); NaN/infinity are outside the model.  Composite JSON documents
  (objects/arrays) are outside the model; only their nullness matters here.
- A native database cell together with the sqlx driver's `try_get` decoders is
  modelled by `NativeCell`: one field per Rust target type the source requests,
  each an `Except Unit (Option _)` (`.error ()` = decode failure, `.ok none` =
  SQL NULL, `.ok (some v)` = decoded payload).  Decoded temporal values are
  represented by their canonical `to_string` rendering.
- Rust string primitives (`trim`, `starts_with`, `contains`, `replace`,
  `lines`, `to_uppercase`) are re-implemented structurally on character lists
  so that all definitions evaluate inside the kernel.  `char::is_whitespace`
  is modelled by `Char.isWhitespace` (agrees on ASCII input).
-/

namespace Recch

/-- The serde_json value model used by execute_query results. -/
inductive Json where
  | null : Json
  | bool (b : Bool) : Json
  | num (n : Int) : Json
  | fnum (q : Rat) : Json
  | str (s : String) : Json
deriving DecidableEq, Repr

/-- Outcomes of the sqlx `try_get` decoders for one fetched cell.
`.error ()` models `Err(_)`, `.ok none` models `Ok(None)` (SQL NULL),
`.ok (some v)` models `Ok(Some(v))`. -/
structure NativeCell where
  asBool : Except Unit (Option Bool)
  asI64 : Except Unit (Option Int)
  asU64 : Except Unit (Option Nat)
  asI32 : Except Unit (Option Int)
  asI8 : Except Unit (Option Int)
  asF64 : Except Unit (Option Rat)
  asBytes : Except Unit (Option (List Nat))
  asJson : Except Unit (Option Json)
  asDateTime : Except Unit (Option String)
  asDateTimeUtc : Except Unit (Option String)
  asDate : Except Unit (Option String)
  asTime : Except Unit (Option String)
  asString : Except Unit (Option String)

/-- `json!(v)` on an `Option`: `None` becomes JSON null. -/
def optJson {α : Type} (f : α → Json) : Option α → Json
  | none => Json.null
  | some a => f a

/-- The `try_get(..).unwrap_or(None)` idiom: a failed decode is flattened
to `None`. -/
def getOr {α : Type} (e : Except Unit (Option α)) : Option α :=
  match e with
  | .ok v => v
  | .error _ => none

/- ---------- Rust string primitives, re-implemented structurally ---------- -/

/-- One hex digit (a nibble), uppercase, as produced by Rust `{:02X}`
formatting. -/
def hexDigit (n : Nat) : Char :=
  match n with
  | 0 => '0' | 1 => '1' | 2 => '2' | 3 => '3' | 4 => '4' | 5 => '5' | 6 => '6' | 7 => '7'
  | 8 => '8' | 9 => '9' | 10 => 'A' | 11 => 'B' | 12 => 'C' | 13 => 'D' | 14 => 'E' | 15 => 'F'
  | _ => '0'

/-- `format!("{:02X}", b)` for a byte `b < 256`. -/
def hexByte (b : Nat) : String :=
  String.mk [hexDigit (b / 16), hexDigit (b % 16)]

/-- `v.iter().map(|b| format!("{:02X}", b)).collect::<String>()`. -/
def hexOf : List Nat → String
  | [] => ""
  | b :: t => hexByte b ++ hexOf t

/-- Rust `str::contains` on character lists: does `p` occur as a contiguous
subsequence of `l`? -/
def seqContains : List Char → List Char → Bool
  | p, [] => p.isEmpty
  | p, c :: t => p.isPrefixOf (c :: t) || seqContains p t

/-- Rust `str::starts_with`. -/
def rustStartsWith (s p : String) : Bool :=
  p.data.isPrefixOf s.data

/-- Rust `str::contains`. -/
def rustStrContains (s pat : String) : Bool :=
  seqContains pat.data s.data

/-- Rust `str::to_uppercase` (ASCII-adequate model). -/
def upperStr (s : String) : String :=
  String.mk (s.data.map Char.toUpper)

/-- Strip leading and trailing whitespace from a character list. -/
def trimChars (l : List Char) : List Char :=
  ((l.dropWhile Char.isWhitespace).reverse.dropWhile Char.isWhitespace).reverse

/-- Rust `str::trim`. -/
def rustTrim (s : String) : String :=
  String.mk (trimChars s.data)

/-- Fuel-driven worker for `rustReplace` (structural, kernel-evaluable).
The pattern is assumed non-empty (it is a single quote at all call sites). -/
def replaceSeqAux (pat rep : List Char) : Nat → List Char → List Char
  | _, [] => []
  | 0, l => l
  | Nat.succ fuel, c :: t =>
      if pat.isPrefixOf (c :: t) then
        rep ++ replaceSeqAux pat rep fuel ((c :: t).drop pat.length)
      else
        c :: replaceSeqAux pat rep fuel t

/-- Rust `str::replace` (leftmost, non-overlapping). -/
def rustReplace (s pat rep : String) : String :=
  String.mk (replaceSeqAux pat.data rep.data s.data.length s.data)

/-- Split a character list on newline characters. -/
def splitLinesAux : List Char → List Char → List String
  | [], acc => [String.mk acc.reverse]
  | c :: cs, acc =>
      if c = '\n' then String.mk acc.reverse :: splitLinesAux cs [] else splitLinesAux cs (c :: acc)

/-- Drop one trailing carriage return, as Rust `str::lines` does. -/
def stripCR (l : String) : String :=
  if l.data.getLast? = some '\r' then String.mk l.data.dropLast else l

/-- Rust `str::lines`: split on newline; a trailing newline yields no final
empty line; the empty string has no lines; each line loses a trailing CR. -/
def rustLines (s : String) : List String :=
  if s.data.isEmpty then []
  else
    let parts := splitLinesAux s.data []
    let parts := if s.data.getLast? = some '\n' then parts.dropLast else parts
    parts.map stripCR

/- ---------- execute_query: binary previews ---------- -/

/-- The dedicated binary-typed cell rendering of execute_query: hex of the
first 32 bytes, with a `... (N bytes)` marker recording the true length when
truncated. -/
def binaryRender (v : List Nat) : String :=
  "0x" ++ hexOf (v.take 32) ++ (if v.length > 32 then "... (" ++ toString v.length ++ " bytes)" else "")

/-- The unknown-type fallback binary preview of execute_query: hex of the
first 16 bytes inside a `[BLOB: ...]` frame. -/
def blobRender (v : List Nat) : String :=
  "[BLOB: 0x" ++ hexOf (v.take 16) ++ (if v.length > 16 then "..." else "") ++ "]"

/- ---------- execute_query: MySQL cell normalization ---------- -/

def tagTINYINT : String := "TINYINT"
def tagSMALLINT : String := "SMALLINT"
def tagINT : String := "INT"
def tagINTEGER : String := "INTEGER"
def tagBIGINT : String := "BIGINT"
def tagMEDIUMINT : String := "MEDIUMINT"
def tagBINARY : String := "BINARY"
def tagBLOB : String := "BLOB"
def tagBYTEA : String := "BYTEA"

/-- The integer-family guard of the MySQL arm of execute_query. -/
def isIntFamily (t : String) : Bool :=
  rustStartsWith t tagTINYINT || rustStartsWith t tagSMALLINT || rustStartsWith t tagINT ||
    rustStartsWith t tagINTEGER || rustStartsWith t tagBIGINT || rustStartsWith t tagMEDIUMINT ||
    t == "INT4" || t == "INT8"

/-- The binary-family guard of the MySQL arm of execute_query. -/
def isBinFamily (t : String) : Bool :=
  rustStrContains (upperStr t) tagBINARY || rustStrContains (upperStr t) tagBLOB ||
    rustStrContains (upperStr t) tagBYTEA

/-- Which arm of the MySQL per-type match a column type name selects
(arms tried in source order). -/
inductive MySqlArm where
  | boolArm | intArm | floatArm | bitArm | jsonArm | tsArm
  | dateArm | timeArm | yearArm | binArm | otherArm
deriving DecidableEq, Repr

def mysqlArm (t : String) : MySqlArm :=
  if t == "BOOLEAN" || t == "BOOL" then .boolArm
  else if isIntFamily t then .intArm
  else if t == "FLOAT" || t == "DOUBLE" || t == "REAL" || t == "NUMERIC" then .floatArm
  else if t == "BIT" then .bitArm
  else if t == "JSON" then .jsonArm
  else if t == "TIMESTAMP" || t == "DATETIME" then .tsArm
  else if t == "DATE" then .dateArm
  else if t == "TIME" then .timeArm
  else if t == "YEAR" then .yearArm
  else if isBinFamily t then .binArm
  else .otherArm

/-- The MySQL per-cell normalization of execute_query (lib.rs 1142-1283). -/
def normalizeMySql (t : String) (c : NativeCell) : Json :=
  match mysqlArm t with
  | .boolArm => optJson Json.bool (getOr c.asBool)
  | .intArm =>
    match c.asI64 with
    | .ok v => optJson Json.num v
    | .error _ =>
      match c.asU64 with
      | .ok v => optJson (fun n => Json.num (n : Int)) v
      | .error _ =>
        match c.asI32 with
        | .ok v => optJson Json.num v
        | .error _ =>
          match c.asI8 with
          | .ok v => optJson Json.num v
          | .error _ =>
            match c.asString with
            | .ok v => optJson Json.str v
            | .error _ => Json.null
  | .floatArm => optJson Json.fnum (getOr c.asF64)
  | .bitArm =>
    match c.asU64 with
    | .ok v => optJson (fun n => Json.num (n : Int)) v
    | .error _ =>
      match c.asBytes with
      | .ok (some v) => Json.str ("0x" ++ hexOf v)
      | .ok none => Json.null
      | .error _ => Json.null
  | .jsonArm =>
    match c.asJson with
    | .ok (some j) => j
    | .ok none => Json.null
    | .error _ => Json.null
  | .tsArm =>
    match c.asDateTime with
    | .ok (some s) => Json.str s
    | .ok none => Json.null
    | .error _ =>
      match c.asString with
      | .ok v => optJson Json.str v
      | .error _ => Json.null
  | .dateArm =>
    match c.asDate with
    | .ok (some s) => Json.str s
    | .ok none => Json.null
    | .error _ => Json.null
  | .timeArm =>
    match c.asTime with
    | .ok (some s) => Json.str s
    | .ok none => Json.null
    | .error _ => Json.null
  | .yearArm =>
    match c.asI32 with
    | .ok (some n) => Json.num n
    | .ok none => Json.null
    | .error _ =>
      match c.asString with
      | .ok v => optJson Json.str v
      | .error _ => Json.null
  | .binArm =>
    match c.asBytes with
    | .ok (some v) => Json.str (binaryRender v)
    | .ok none => Json.null
    | .error _ => Json.null
  | .otherArm =>
    match c.asString with
    | .ok v => optJson Json.str v
    | .error _ =>
      match c.asBytes with
      | .ok (some v) => Json.str (blobRender v)
      | .ok none => Json.null
      | .error _ => Json.null

/- ---------- execute_query: PostgreSQL cell normalization ---------- -/

/-- Which arm of the PostgreSQL per-type match a column type name selects. -/
inductive PgArm where
  | boolArm | intArm | floatArm | tsArm | dateArm | timeArm | jsonArm | binArm | otherArm
deriving DecidableEq, Repr

def pgArm (t : String) : PgArm :=
  if t == "BOOL" then .boolArm
  else if t == "INT2" || t == "INT4" || t == "INT8" then .intArm
  else if t == "FLOAT4" || t == "FLOAT8" || t == "NUMERIC" || t == "MONEY" then .floatArm
  else if t == "TIMESTAMP" || t == "TIMESTAMPTZ" then .tsArm
  else if t == "DATE" then .dateArm
  else if t == "TIME" || t == "TIMETZ" then .timeArm
  else if t == "JSON" || t == "JSONB" then .jsonArm
  else if t == "BYTEA" || t == "VARBINARY" || t == "BINARY" || t == "BLOB" then .binArm
  else .otherArm

/-- The PostgreSQL per-cell normalization of execute_query (lib.rs 1318-1426). -/
def normalizePg (t : String) (c : NativeCell) : Json :=
  match pgArm t with
  | .boolArm => optJson Json.bool (getOr c.asBool)
  | .intArm => optJson Json.num (getOr c.asI64)
  | .floatArm => optJson Json.fnum (getOr c.asF64)
  | .tsArm =>
    match c.asString with
    | .ok v => optJson Json.str v
    | .error _ =>
      match c.asDateTime with
      | .ok v => optJson Json.str v
      | .error _ =>
        match c.asDateTimeUtc with
        | .ok v => optJson Json.str v
        | .error _ => Json.null
  | .dateArm =>
    match c.asString with
    | .ok v => optJson Json.str v
    | .error _ =>
      match c.asDate with
      | .ok v => optJson Json.str v
      | .error _ => Json.null
  | .timeArm =>
    match c.asString with
    | .ok v => optJson Json.str v
    | .error _ =>
      match c.asTime with
      | .ok v => optJson Json.str v
      | .error _ => Json.null
  | .jsonArm =>
    match c.asJson with
    | .ok (some j) => j
    | .ok none => Json.null
    | .error _ =>
      match c.asString with
      | .ok v => optJson Json.str v
      | .error _ => Json.null
  | .binArm =>
    match c.asBytes with
    | .ok (some v) => Json.str (binaryRender v)
    | .ok none => Json.null
    | .error _ => Json.null
  | .otherArm =>
    match c.asString with
    | .ok v => optJson Json.str v
    | .error _ =>
      match c.asBytes with
      | .ok (some v) => Json.str (blobRender v)
      | _ => Json.null

/-- The sequence of `(column name, value)` insertions execute_query performs
for one MySQL row: one per column, in driver column order. -/
def normalizeRowMySql (cols : List (String × String × NativeCell)) : List (String × Json) :=
  cols.map (fun x => (x.1, normalizeMySql x.2.1 x.2.2))

/-- The sequence of `(column name, value)` insertions execute_query performs
for one PostgreSQL row. -/
def normalizeRowPg (cols : List (String × String × NativeCell)) : List (String × Json) :=
  cols.map (fun x => (x.1, normalizePg x.2.1 x.2.2))

/- ---------- fallback chains, declaratively ---------- -/

/-- Forget a decoder outcome's payload, keeping success/NULL/failure. -/
def slot {α : Type} (e : Except Unit (Option α)) : Except Unit (Option Unit) :=
  match e with
  | .ok none => .ok none
  | .ok (some _) => .ok (some ())
  | .error _ => .error ()

/-- Like `slot`, but a decoded JSON `null` document also counts as a null
payload (the source returns it as the cell value unchanged). -/
def slotJ (e : Except Unit (Option Json)) : Except Unit (Option Unit) :=
  match e with
  | .ok none => .ok none
  | .ok (some Json.null) => .ok none
  | .ok (some _) => .ok (some ())
  | .error _ => .error ()

/-- The ordered decoder chain the MySQL arm for tag `t` consults. -/
def chainMySql (t : String) (c : NativeCell) : List (Except Unit (Option Unit)) :=
  match mysqlArm t with
  | .boolArm => [slot c.asBool]
  | .intArm => [slot c.asI64, slot c.asU64, slot c.asI32, slot c.asI8, slot c.asString]
  | .floatArm => [slot c.asF64]
  | .bitArm => [slot c.asU64, slot c.asBytes]
  | .jsonArm => [slotJ c.asJson]
  | .tsArm => [slot c.asDateTime, slot c.asString]
  | .dateArm => [slot c.asDate]
  | .timeArm => [slot c.asTime]
  | .yearArm => [slot c.asI32, slot c.asString]
  | .binArm => [slot c.asBytes]
  | .otherArm => [slot c.asString, slot c.asBytes]

/-- The ordered decoder chain the PostgreSQL arm for tag `t` consults. -/
def chainPg (t : String) (c : NativeCell) : List (Except Unit (Option Unit)) :=
  match pgArm t with
  | .boolArm => [slot c.asBool]
  | .intArm => [slot c.asI64]
  | .floatArm => [slot c.asF64]
  | .tsArm => [slot c.asString, slot c.asDateTime, slot c.asDateTimeUtc]
  | .dateArm => [slot c.asString, slot c.asDate]
  | .timeArm => [slot c.asString, slot c.asTime]
  | .jsonArm => [slotJ c.asJson, slot c.asString]
  | .binArm => [slot c.asBytes]
  | .otherArm => [slot c.asString, slot c.asBytes]

end Recch

namespace Recch

/- ---------- execute_query: Redis script interpreter ---------- -/

/-- The tokenizer loop state of the Redis branch of execute_query
(lib.rs 1497-1500): accumulated tokens, current token, quote flag,
escape flag. -/
structure TokState where
  args : List String
  current : String
  inQuotes : Bool
  esc : Bool
deriving DecidableEq, Repr

/-- One character step of the Redis line tokenizer (lib.rs 1502-1518). -/
def tokStep (st : TokState) (c : Char) : TokState :=
  if st.esc then { st with current := st.current.push c, esc := false }
  else if c == '\\' then { st with esc := true }
  else if c == '"' then { st with inQuotes := !st.inQuotes }
  else if c.isWhitespace && !st.inQuotes then
    if st.current.isEmpty then st
    else { st with args := st.args ++ [st.current], current := "" }
  else { st with current := st.current.push c }

/-- Tokenize one (already trimmed) Redis script line (lib.rs 1496-1521). -/
def tokenizeLine (line : String) : List String :=
  let st := line.data.foldl tokStep { args := [], current := "", inQuotes := false, esc := false }
  if st.current.isEmpty then st.args else st.args ++ [st.current]

/-- A Redis reply shape (redis::Value; aggregate replies abbreviated to the
forms the executor's stringification distinguishes). -/
inductive RedisValue where
  | nil : RedisValue
  | okay : RedisValue
  | status (s : String) : RedisValue
  | data (s : String) : RedisValue
  | int (i : Int) : RedisValue
  | bulk (items : List String) : RedisValue
deriving DecidableEq, Repr

/-- redis_value_to_string (lib.rs 1474-1486).  Nil and Okay are special-cased;
other shapes go through the redis crate's `FromRedisValue for String`
conversion (an external collaborator): bulk-string and status replies render
as their text, integers as their decimal form; shapes with no string
conversion fall back to a debug-style rendering. -/
def redis_value_to_string (v : RedisValue) : String :=
  match v with
  | .nil => "(nil)"
  | .okay => "OK"
  | .status s => s
  | .data s => s
  | .int i => toString i
  | .bulk items => "Bulk " ++ toString items

/-- Process one physical script line (lib.rs 1489-1545): trim it, skip blank
and comment lines, tokenize, skip token-free lines, otherwise execute the
command (`exec` models `cmd.query_async` on the shared connection) and record
the `(original-line-text, stringified-reply)` pair; a failed command records
an `Error: …` marker instead of aborting. -/
def processLine (exec : List String → Except String RedisValue) (line : String) :
    Option (String × String) :=
  let trimmed := rustTrim line
  if trimmed.data.isEmpty then none
  else if rustStartsWith trimmed "#" then none
  else if rustStartsWith trimmed "--" then none
  else
    let args := tokenizeLine trimmed
    if args.isEmpty then none
    else
      let res :=
        match exec args with
        | .ok v => redis_value_to_string v
        | .error e => "Error: " ++ e
      some (trimmed, res)

/-- The ordered result pairs the Redis branch of execute_query produces for a
script: the source's for-loop with `continue` is a filterMap over the
script's physical lines. -/
def scriptEntries (exec : List String → Except String RedisValue) (script : String) :
    List (String × String) :=
  (rustLines script).filterMap (processLine exec)

/-- Whether a trimmed line survives the skip rules, and the command text it
contributes (declarative restatement of the skip conditions). -/
def lineCommand (l : String) : Option String :=
  let t := rustTrim l
  if t.data.isEmpty then none
  else if rustStartsWith t "#" then none
  else if rustStartsWith t "--" then none
  else if (tokenizeLine t).isEmpty then none
  else some t

/-- The commands of a script, in original line order, after the skip rules. -/
def commandsOf (script : String) : List String :=
  (rustLines script).filterMap lineCommand

/- ---------- alter_table ---------- -/

structure ColumnDef where
  name : String
  type_name : String
  is_pk : Bool
  is_nullable : Option Bool
  default_value : Option String
  comment : Option String

structure IndexDef where
  name : String
  columns : List String
  is_unique : Bool
  is_pk : Bool
  comment : Option String

structure AlterOperation where
  op_type : String
  column_name : Option String
  new_name : Option String
  column_def : Option ColumnDef
  index_def : Option IndexDef
  index_name : Option String

/-- `idx.columns.join(", ")`. -/
def joinCols (cols : List String) : String :=
  String.intercalate ", " cols

/-- The MySQL branch of alter_table's statement construction
(lib.rs 879-970). -/
def mysqlAlterQuery (table : String) (op : AlterOperation) : Except String String :=
  if op.op_type == "add" then
    match op.column_def with
    | none => .error "Missing column definition"
    | some col =>
      let comment :=
        match col.comment with
        | some c => "COMMENT '" ++ rustReplace c "'" "''" ++ "'"
        | none => ""
      let null_def := if col.is_nullable == some false then "NOT NULL" else "NULL"
      let default_def :=
        match col.default_value with
        | some d => "DEFAULT " ++ d
        | none => ""
      let pk_def := if col.is_pk then "PRIMARY KEY" else ""
      .ok ("ALTER TABLE " ++ table ++ " ADD COLUMN " ++ col.name ++ " " ++ col.type_name ++
        " " ++ null_def ++ " " ++ default_def ++ " " ++ pk_def ++ " " ++ comment)
  else if op.op_type == "modify" then
    match op.column_def with
    | none => .error "Missing column definition"
    | some col =>
      let comment :=
        match col.comment with
        | some c => "COMMENT '" ++ rustReplace c "'" "''" ++ "'"
        | none => ""
      let null_def := if col.is_nullable == some false then "NOT NULL" else "NULL"
      let default_def :=
        match col.default_value with
        | some d => "DEFAULT " ++ d
        | none => ""
      .ok ("ALTER TABLE " ++ table ++ " MODIFY COLUMN " ++ col.name ++ " " ++ col.type_name ++
        " " ++ null_def ++ " " ++ default_def ++ " " ++ comment)
  else if op.op_type == "drop" then
    match op.column_name with
    | none => .error "Missing column name"
    | some col_name => .ok ("ALTER TABLE " ++ table ++ " DROP COLUMN " ++ col_name)
  else if op.op_type == "rename" then
    match op.column_name with
    | none => .error "Missing column name"
    | some col_name =>
      match op.new_name with
      | none => .error "Missing new name"
      | some new_name =>
        .ok ("ALTER TABLE " ++ table ++ " RENAME COLUMN " ++ col_name ++ " TO " ++ new_name)
  else if op.op_type == "add_index" then
    match op.index_def with
    | none => .error "Missing index definition"
    | some idx =>
      let unique := if idx.is_unique then "UNIQUE" else ""
      .ok ("CREATE " ++ unique ++ " INDEX " ++ idx.name ++ " ON " ++ table ++
        " (" ++ joinCols idx.columns ++ ")")
  else if op.op_type == "drop_index" then
    match op.index_name with
    | none => .error "Missing index name"
    | some idx_name => .ok ("DROP INDEX " ++ idx_name ++ " ON " ++ table)
  else .error "Unknown operation"

/-- The PostgreSQL branch of alter_table's statement construction
(lib.rs 972-1033). -/
def pgAlterQuery (table : String) (op : AlterOperation) : Except String String :=
  if op.op_type == "add" then
    match op.column_def with
    | none => .error "Missing column definition"
    | some col =>
      .ok ("ALTER TABLE " ++ table ++ " ADD COLUMN " ++ col.name ++ " " ++ col.type_name)
  else if op.op_type == "modify" then
    match op.column_def with
    | none => .error "Missing column definition"
    | some col =>
      .ok ("ALTER TABLE " ++ table ++ " ALTER COLUMN " ++ col.name ++ " TYPE " ++ col.type_name)
  else if op.op_type == "drop" then
    match op.column_name with
    | none => .error "Missing column name"
    | some col_name => .ok ("ALTER TABLE " ++ table ++ " DROP COLUMN " ++ col_name)
  else if op.op_type == "rename" then
    match op.column_name with
    | none => .error "Missing column name"
    | some col_name =>
      match op.new_name with
      | none => .error "Missing new name"
      | some new_name =>
        .ok ("ALTER TABLE " ++ table ++ " RENAME COLUMN " ++ col_name ++ " TO " ++ new_name)
  else if op.op_type == "add_index" then
    match op.index_def with
    | none => .error "Missing index definition"
    | some idx =>
      let unique := if idx.is_unique then "UNIQUE" else ""
      .ok ("CREATE " ++ unique ++ " INDEX " ++ idx.name ++ " ON " ++ table ++
        " (" ++ joinCols idx.columns ++ ")")
  else if op.op_type == "drop_index" then
    match op.index_name with
    | none => .error "Missing index name"
    | some idx_name => .ok ("DROP INDEX " ++ idx_name)
  else .error "Unknown operation"

/-- The ordered statement sequence alter_table executes against the session:
one statement from the dialect match, plus — on PostgreSQL, for an `add`
operation carrying a comment — the separate best-effort `COMMENT ON COLUMN`
follow-up statement (lib.rs 1038-1095). -/
def alterStatements (db_type table : String) (op : AlterOperation) :
    Except String (List String) :=
  if db_type == "mysql" then (mysqlAlterQuery table op).map (fun q => [q])
  else if db_type == "postgresql" then
    (pgAlterQuery table op).map (fun q =>
      q :: (if op.op_type == "add" then
        match op.column_def with
        | some col =>
          match col.comment with
          | some c =>
            ["COMMENT ON COLUMN " ++ table ++ "." ++ col.name ++ " IS '" ++
              rustReplace c "'" "''" ++ "'"]
          | none => []
        | none => []
      else []))
  else .error "Unsupported database"

/- ---------- get_tables: MySQL metadata conversion ---------- -/

structure TableInfo where
  name : String
  data_size : Option Int
  index_size : Option Int
  total_size : Option Int
  row_count : Option Int
  comment : Option String
deriving DecidableEq, Repr

/-- Rust `v as i64` on a `u64` value: two's-complement reinterpretation. -/
def u64_as_i64 (v : Nat) : Int :=
  if v < 2 ^ 63 then (v : Int) else (v : Int) - 2 ^ 64

/-- Wrap an integer into the signed 64-bit range (release-mode i64 addition). -/
def wrap_i64 (x : Int) : Int :=
  (x + 2 ^ 63) % 2 ^ 64 - 2 ^ 63

/-- The TableInfo get_tables builds from one MySQL information_schema row
(lib.rs 346-365): DATA_LENGTH, INDEX_LENGTH and TABLE_ROWS are read as u64
and cast to i64 with `as`. -/
def mysqlTableInfo (name : String) (data_len index_len table_rows : Option Nat)
    (comment : Option String) : TableInfo :=
  let d_size := data_len.map u64_as_i64
  let i_size := index_len.map u64_as_i64
  let rows_count := table_rows.map u64_as_i64
  { name := name
    data_size := d_size
    index_size := i_size
    total_size := some (wrap_i64 (d_size.getD 0 + i_size.getD 0))
    row_count := rows_count
    comment := comment }

end Recch

namespace Recch

/- ---------- general helper lemmas ---------- -/

lemma seqContains_nil (l : List Char) : seqContains [] l = true := by
  cases l with
  | nil => rfl
  | cons a t => simp [seqContains]

lemma seqContains_self_append (p u : List Char) : seqContains p (p ++ u) = true := by
  cases p with
  | nil => simpa using seqContains_nil u
  | cons a t =>
    have hpre : (a :: t).isPrefixOf (a :: (t ++ u)) = true := by
      rw [List.isPrefixOf_iff_prefix]
      exact List.prefix_append (a :: t) u
    simp [seqContains, hpre]

lemma seqContains_append (p s u : List Char) : seqContains p (s ++ (p ++ u)) = true := by
  induction s with
  | nil => simpa using seqContains_self_append p u
  | cons a s ih =>
    simp only [List.cons_append, seqContains, List.append_eq]
    rw [ih]
    simp

lemma seqContains_of_eq {p l s u : List Char} (h : l = s ++ (p ++ u)) :
    seqContains p l = true := by
  subst h
  exact seqContains_append p s u

lemma mem_of_seqContains {p l : List Char} (h : seqContains p l = true) {a : Char}
    (ha : a ∈ p) : a ∈ l := by
  induction l with
  | nil =>
    simp [seqContains, List.isEmpty_iff] at h
    subst h
    simp at ha
  | cons b t ih =>
    simp only [seqContains, Bool.or_eq_true] at h
    rcases h with h | h
    · rw [List.isPrefixOf_iff_prefix] at h
      exact h.subset ha
    · exact List.mem_cons_of_mem b (ih h)

lemma hexDigit_ne_dot (n : Nat) : hexDigit n ≠ '.' := by
  unfold hexDigit
  split <;> decide

lemma dot_not_mem_hexOf (v : List Nat) : '.' ∉ (hexOf v).data := by
  induction v with
  | nil => simp [hexOf]
  | cons b t ih =>
    simp only [hexOf, String.data_append]
    intro hmem
    rcases List.mem_append.mp hmem with h | h
    · have hb : (hexByte b).data = [hexDigit (b / 16), hexDigit (b % 16)] := rfl
      rw [hb] at h
      simp only [List.mem_cons, List.not_mem_nil, or_false] at h
      rcases h with h | h
      · exact hexDigit_ne_dot (b / 16) h.symm
      · exact hexDigit_ne_dot (b % 16) h.symm
    · exact ih h

lemma strAppend_assoc (a b c : String) : a ++ b ++ c = a ++ (b ++ c) := by
  apply String.ext
  simp [String.data_append, List.append_assoc]

/-- A tag satisfying the integer-family guard selects the integer arm
("BOOLEAN"/"BOOL" are not integer-family). -/
lemma mysqlArm_int {t : String} (h : isIntFamily t = true) : mysqlArm t = .intArm := by
  have h1 : (t == "BOOLEAN") = false := by
    cases hb : t == "BOOLEAN" with
    | false => rfl
    | true =>
      have : t = "BOOLEAN" := by simpa using hb
      subst this
      exact absurd h (by decide)
  have h2 : (t == "BOOL") = false := by
    cases hb : t == "BOOL" with
    | false => rfl
    | true =>
      have : t = "BOOL" := by simpa using hb
      subst this
      exact absurd h (by decide)
  simp [mysqlArm, h1, h2, h]

/- ---------- claim theorems ---------- -/

/-- C2: the Redis line tokenizer splits on whitespace outside quotes, a double
quote toggles a quoted span in which whitespace is literal, and a backslash
always escapes the following character (consumed, next character emitted
literally, regardless of quote state); in particular the line
`HSET myhash "field one" value\"x` tokenizes to exactly the four tokens
`HSET`, `myhash`, `field one`, `value"x`. -/
theorem c2_tokenizer_quotes_and_escapes :
    tokenizeLine "HSET myhash \"field one\" value\\\"x" =
      ["HSET", "myhash", "field one", "value\"x"] ∧
    (∀ (st : TokState) (c : Char), tokStep { st with esc := true } c =
      { st with current := st.current.push c, esc := false }) ∧
    (∀ st : TokState, tokStep { st with esc := false } '\\' = { st with esc := true }) := by
  refine ⟨by decide, fun st c => ?_, fun st => ?_⟩
  · simp [tokStep]
  · simp [tokStep]

/-- C10: in the Redis line tokenizer a quoted span contributes characters only
if it is non-empty: an empty quoted string produces no token, so `SET k ""`
tokenizes to only the two tokens `SET` and `k`, indistinguishable from
`SET k`. -/
theorem c10_empty_quoted_argument_dropped :
    tokenizeLine "SET k \"\"" = ["SET", "k"] ∧
    tokenizeLine "SET k \"\"" = tokenizeLine "SET k" ∧
    (tokenizeLine "SET k \"\"").length = 2 := by
  refine ⟨by decide, by decide, by decide⟩

end Recch

namespace Recch

/-- A cell on which every decoder fails. -/
def allFailCell : NativeCell :=
  { asBool := .error (), asI64 := .error (), asU64 := .error (), asI32 := .error (),
    asI8 := .error (), asF64 := .error (), asBytes := .error (), asJson := .error (),
    asDateTime := .error (), asDateTimeUtc := .error (), asDate := .error (),
    asTime := .error (), asString := .error () }

/-- An unsigned BIGINT cell holding 2^63 (one above the signed 64-bit range):
the signed decode fails, the unsigned decode succeeds, and a textual decode
would also be available. -/
def c1cell : NativeCell :=
  { allFailCell with
    asU64 := .ok (some 9223372036854775808),
    asString := .ok (some "9223372036854775808") }

/-- C1 counterexample: for the native unsigned value 2^63 (exceeding the
signed 64-bit range) the MySQL integer-family normalization yields the exact
JSON number 2^63 — not the Text value the claim requires (and not Null). -/
theorem c1_counterexample :
    normalizeMySql "BIGINT UNSIGNED" c1cell = Json.num 9223372036854775808 ∧
    normalizeMySql "BIGINT UNSIGNED" c1cell ≠ Json.str "9223372036854775808" ∧
    normalizeMySql "BIGINT UNSIGNED" c1cell ≠ Json.null := by
  refine ⟨by decide, by decide, by decide⟩

/-- C1 (amended): for an integer-family tag, when the signed-64 decode fails
and the unsigned-64 decode yields a value, normalization yields the exact
value as a JSON number (never Null, never wrapped); the Text fallback engages
only when the signed, unsigned, 32-bit and 8-bit decodes all fail. -/
theorem c1_amended_unsigned_exact (t : String) (c : NativeCell)
    (ht : isIntFamily t = true) :
    (∀ n : Nat, c.asI64 = .error () → c.asU64 = .ok (some n) →
      normalizeMySql t c = Json.num (n : Int)) ∧
    (∀ s : String, c.asI64 = .error () → c.asU64 = .error () → c.asI32 = .error () →
      c.asI8 = .error () → c.asString = .ok (some s) →
      normalizeMySql t c = Json.str s) := by
  have harm := mysqlArm_int ht
  constructor
  · intro n h1 h2
    simp [normalizeMySql, harm, h1, h2, optJson]
  · intro s h1 h2 h3 h4 h5
    simp [normalizeMySql, harm, h1, h2, h3, h4, h5, optJson]

/-- A BIGINT UNSIGNED cell where only the textual decode succeeds. -/
def c1cellText : NativeCell :=
  { allFailCell with asString := .ok (some "9223372036854775808") }

theorem c1_amended_witness :
    normalizeMySql "BIGINT UNSIGNED" c1cell = Json.num ((9223372036854775808 : Nat) : Int) ∧
    normalizeMySql "BIGINT UNSIGNED" c1cellText = Json.str "9223372036854775808" := by
  constructor
  · exact (c1_amended_unsigned_exact "BIGINT UNSIGNED" c1cell (by decide)).1
      9223372036854775808 rfl rfl
  · exact (c1_amended_unsigned_exact "BIGINT UNSIGNED" c1cellText (by decide)).2
      "9223372036854775808" rfl rfl rfl rfl rfl

/-- C9: get_tables for MySQL reads DATA_LENGTH, INDEX_LENGTH and TABLE_ROWS
as u64 and casts with `as i64`, so a metadata count above the signed 64-bit
maximum wraps (value reinterpreted modulo 2^64 as signed, hence negative)
instead of degrading to a decimal text form. -/
theorem c9_metadata_cast_wraps (name : String) (v : Nat)
    (h1 : 2 ^ 63 ≤ v) (h2 : v < 2 ^ 64) :
    (mysqlTableInfo name (some v) (some v) (some v) none).row_count =
      some ((v : Int) - 2 ^ 64) ∧
    (mysqlTableInfo name (some v) (some v) (some v) none).data_size =
      some ((v : Int) - 2 ^ 64) ∧
    (mysqlTableInfo name (some v) (some v) (some v) none).index_size =
      some ((v : Int) - 2 ^ 64) ∧
    (v : Int) - 2 ^ 64 < 0 ∧
    ((v : Int) - 2 ^ 64) % 2 ^ 64 = (v : Int) % 2 ^ 64 := by
  have hlt : ¬ v < 2 ^ 63 := not_lt.mpr h1
  have hv : ((v : Int)) < 2 ^ 64 := by exact_mod_cast h2
  refine ⟨?_, ?_, ?_, by omega, by omega⟩
  · simp [mysqlTableInfo, u64_as_i64, hlt]
    omega
  · simp [mysqlTableInfo, u64_as_i64, hlt]
    omega
  · simp [mysqlTableInfo, u64_as_i64, hlt]
    omega

theorem c9_witness :
    (mysqlTableInfo "t" (some (2 ^ 63)) (some (2 ^ 63)) (some (2 ^ 63)) none).row_count =
      some (((2 ^ 63 : Nat) : Int) - 2 ^ 64) ∧
    (mysqlTableInfo "t" (some (2 ^ 63)) (some (2 ^ 63)) (some (2 ^ 63)) none).data_size =
      some (((2 ^ 63 : Nat) : Int) - 2 ^ 64) ∧
    (mysqlTableInfo "t" (some (2 ^ 63)) (some (2 ^ 63)) (some (2 ^ 63)) none).index_size =
      some (((2 ^ 63 : Nat) : Int) - 2 ^ 64) ∧
    ((2 ^ 63 : Nat) : Int) - 2 ^ 64 < 0 ∧
    (((2 ^ 63 : Nat) : Int) - 2 ^ 64) % 2 ^ 64 = ((2 ^ 63 : Nat) : Int) % 2 ^ 64 :=
  c9_metadata_cast_wraps "t" (2 ^ 63) (by norm_num) (by norm_num)

end Recch


namespace Recch

lemma processLine_fst (exec : List String → Except String RedisValue) (l : String) :
    (processLine exec l).map Prod.fst = lineCommand l := by
  unfold processLine lineCommand
  dsimp only
  split_ifs <;> simp

lemma filterMap_processLine_fst (exec : List String → Except String RedisValue)
    (ls : List String) :
    (ls.filterMap (processLine exec)).map Prod.fst = ls.filterMap lineCommand := by
  induction ls with
  | nil => rfl
  | cons l t ih =>
    have hl := processLine_fst exec l
    cases hp : processLine exec l with
    | none =>
      rw [hp] at hl
      simp at hl
      simp [List.filterMap_cons, hp, ← hl, ih]
    | some pr =>
      rw [hp] at hl
      simp at hl
      simp [List.filterMap_cons, hp, ← hl, ih]

/-- The executed-command texts of a script do not depend on the executor: the
skip rules alone decide which lines contribute, in original order. -/
lemma scriptEntries_fst (exec : List String → Except String RedisValue) (script : String) :
    (scriptEntries exec script).map Prod.fst = commandsOf script := by
  unfold scriptEntries commandsOf
  exact filterMap_processLine_fst exec (rustLines script)

/-- The five-line script of the C3 example: line 2 blank, line 4 a comment. -/
def c3script : String := "SET a 1\n\nSET b 2\n# comment\nGET a"

/-- C3: blank lines, lines whose trimmed text begins with a comment marker,
and lines producing zero tokens are skipped and contribute no result entry;
remaining commands keep original order.  The 5-line script with line 2 blank
and line 4 `# comment` yields exactly 3 entries, in original line order,
whatever the executor returns. -/
theorem c3_skip_rules_preserve_order :
    (∀ (exec : List String → Except String RedisValue) (script : String),
      (scriptEntries exec script).map Prod.fst = commandsOf script) ∧
    (∀ exec : List String → Except String RedisValue,
      (scriptEntries exec c3script).map Prod.fst = ["SET a 1", "SET b 2", "GET a"] ∧
      (scriptEntries exec c3script).length = 3) := by
  refine ⟨scriptEntries_fst, fun exec => ?_⟩
  have h := scriptEntries_fst exec c3script
  have hc : commandsOf c3script = ["SET a 1", "SET b 2", "GET a"] := by decide
  refine ⟨by rw [h, hc], ?_⟩
  have hlen := congrArg List.length h
  rw [List.length_map] at hlen
  rw [hlen, hc]
  rfl

/-- The five-command script of the C4 example, whose third command fails. -/
def c4script : String := "SET a 1\nSET b 2\nBADCMD x\nGET a\nGET b"

/-- A concrete executor for the C4 example: `BADCMD` fails, everything else
succeeds with its real reply. -/
def c4exec (args : List String) : Except String RedisValue :=
  if args.head? == some "BADCMD" then .error "unknown command"
  else if args.head? == some "SET" then .ok .okay
  else if args == ["GET", "a"] then .ok (.data "1")
  else if args == ["GET", "b"] then .ok (.data "2")
  else .ok .nil

/-- C4: a failing command does not abort the script: the executed command
list (and hence the number of result pairs) is independent of the executor's
successes and failures; concretely, the five-command script with one failing
command still returns five pairs in script order, the failing entry carrying
an `Error:` marker and all others their real results. -/
theorem c4_per_command_failure_is_inline :
    (∀ (e1 e2 : List String → Except String RedisValue) (script : String),
      (scriptEntries e1 script).map Prod.fst = (scriptEntries e2 script).map Prod.fst ∧
      (scriptEntries e1 script).length = (scriptEntries e2 script).length) ∧
    scriptEntries c4exec c4script =
      [("SET a 1", "OK"), ("SET b 2", "OK"), ("BADCMD x", "Error: unknown command"),
        ("GET a", "1"), ("GET b", "2")] ∧
    (scriptEntries c4exec c4script).length = 5 := by
  refine ⟨fun e1 e2 script => ?_, by decide, by decide⟩
  have h1 := scriptEntries_fst e1 script
  have h2 := scriptEntries_fst e2 script
  have hf : (scriptEntries e1 script).map Prod.fst = (scriptEntries e2 script).map Prod.fst :=
    h1.trans h2.symm
  refine ⟨hf, ?_⟩
  have := congrArg List.length hf
  simpa using this

end Recch

namespace Recch

/-- The AlterOperation an `add`-column request carries. -/
def addOpOf (col : ColumnDef) : AlterOperation :=
  { op_type := "add", column_name := none, new_name := none, column_def := some col,
    index_def := none, index_name := none }

/-- The successfully built statement, or the empty string on a translation
error. -/
def okOr (e : Except String String) : String :=
  match e with
  | .ok s => s
  | .error _ => ""

/-- The second statement of a successfully translated sequence (empty string
when absent). -/
def secondStmt (e : Except String (List String)) : String :=
  match e with
  | .ok l => l.getD 1 ""
  | .error _ => ""

/-- C5: for an AddColumn operation carrying a comment on PostgreSQL (no
inline column-comment syntax) alter_table executes exactly two statements:
the bare add-column statement, then a separate comment-assignment statement
referencing the same table and column name. -/
theorem c5_pg_add_comment_two_statements (table : String) (col : ColumnDef) (c : String)
    (h : col.comment = some c) :
    alterStatements "postgresql" table (addOpOf col) =
      .ok ["ALTER TABLE " ++ table ++ " ADD COLUMN " ++ col.name ++ " " ++ col.type_name,
        "COMMENT ON COLUMN " ++ table ++ "." ++ col.name ++ " IS '" ++
          rustReplace c "'" "''" ++ "'"] := by
  simp [alterStatements, pgAlterQuery, addOpOf, h, Except.map]

/-- A concrete not-nullable commented column for the C5 witness. -/
def c5col : ColumnDef :=
  { name := "age", type_name := "INT", is_pk := false, is_nullable := some false,
    default_value := none, comment := some "user age" }

theorem c5_witness :
    alterStatements "postgresql" "users" (addOpOf c5col) =
      .ok ["ALTER TABLE " ++ "users" ++ " ADD COLUMN " ++ c5col.name ++ " " ++ c5col.type_name,
        "COMMENT ON COLUMN " ++ "users" ++ "." ++ c5col.name ++ " IS '" ++
          rustReplace "user age" "'" "''" ++ "'"] :=
  c5_pg_add_comment_two_statements "users" c5col "user age" rfl

/-- A column whose default-value literal embeds single quotes. -/
def c7col : ColumnDef :=
  { name := "c", type_name := "INT", is_pk := false, is_nullable := none,
    default_value := some "'a'b'", comment := none }

/-- C7 counterexample: the MySQL add-column statement interpolates the
default-value literal `'a'b'` verbatim — the embedded single quote is not
doubled (the generated SQL contains no doubled quote at all), refuting the
claim that every single quote in a default-value literal is escaped. -/
theorem c7_counterexample :
    okOr (mysqlAlterQuery "t" (addOpOf c7col)) =
      "ALTER TABLE t ADD COLUMN c INT NULL DEFAULT 'a'b'  " ∧
    seqContains "DEFAULT 'a'b'".data
      "ALTER TABLE t ADD COLUMN c INT NULL DEFAULT 'a'b'  ".data = true ∧
    seqContains "''".data "ALTER TABLE t ADD COLUMN c INT NULL DEFAULT 'a'b'  ".data = false := by
  refine ⟨by decide, by decide, by decide⟩

/-- C7 (amended): in alter_table statement construction every single quote in
a comment literal is doubled before interpolation (MySQL inline COMMENT and
the PostgreSQL COMMENT ON follow-up), but default-value literals are
interpolated verbatim, unescaped. -/
theorem c7_amended_comment_escaped_default_verbatim (table : String) (col : ColumnDef)
    (c d : String) (hc : col.comment = some c) (hd : col.default_value = some d) :
    seqContains ("COMMENT '" ++ rustReplace c "'" "''" ++ "'").data
      (okOr (mysqlAlterQuery table (addOpOf col))).data = true ∧
    seqContains ("DEFAULT " ++ d).data
      (okOr (mysqlAlterQuery table (addOpOf col))).data = true ∧
    seqContains (" IS '" ++ rustReplace c "'" "''" ++ "'").data
      (secondStmt (alterStatements "postgresql" table (addOpOf col))).data = true := by
  have hq : okOr (mysqlAlterQuery table (addOpOf col)) =
      "ALTER TABLE " ++ table ++ " ADD COLUMN " ++ col.name ++ " " ++ col.type_name ++ " " ++
        (if col.is_nullable == some false then "NOT NULL" else "NULL") ++ " " ++
        ("DEFAULT " ++ d) ++ " " ++ (if col.is_pk then "PRIMARY KEY" else "") ++ " " ++
        ("COMMENT '" ++ rustReplace c "'" "''" ++ "'") := by
    simp [okOr, mysqlAlterQuery, addOpOf, hc, hd]
  have hqs : secondStmt (alterStatements "postgresql" table (addOpOf col)) =
      "COMMENT ON COLUMN " ++ table ++ "." ++ col.name ++ " IS '" ++
        rustReplace c "'" "''" ++ "'" := by
    simp [secondStmt, alterStatements, pgAlterQuery, addOpOf, hc, Except.map, List.getD]
  refine ⟨?_, ?_, ?_⟩
  · rw [hq]
    exact seqContains_of_eq
      (s := ("ALTER TABLE " ++ table ++ " ADD COLUMN " ++ col.name ++ " " ++ col.type_name ++
        " " ++ (if col.is_nullable == some false then "NOT NULL" else "NULL") ++ " " ++
        ("DEFAULT " ++ d) ++ " " ++ (if col.is_pk then "PRIMARY KEY" else "") ++ " ").data)
      (u := [])
      (by simp [String.data_append, List.append_assoc])
  · rw [hq]
    exact seqContains_of_eq
      (s := ("ALTER TABLE " ++ table ++ " ADD COLUMN " ++ col.name ++ " " ++ col.type_name ++
        " " ++ (if col.is_nullable == some false then "NOT NULL" else "NULL") ++ " ").data)
      (u := (" " ++ (if col.is_pk then "PRIMARY KEY" else "") ++ " " ++
        ("COMMENT '" ++ rustReplace c "'" "''" ++ "'")).data)
      (by simp [String.data_append, List.append_assoc])
  · rw [hqs]
    exact seqContains_of_eq
      (s := ("COMMENT ON COLUMN " ++ table ++ "." ++ col.name).data)
      (u := [])
      (by simp [String.data_append, List.append_assoc])

/-- A commented, defaulted column for the C7 amended-claim witness. -/
def c7wcol : ColumnDef :=
  { name := "c", type_name := "INT", is_pk := false, is_nullable := none,
    default_value := some "0", comment := some "x'y" }

theorem c7_amended_witness :
    seqContains ("COMMENT '" ++ rustReplace "x'y" "'" "''" ++ "'").data
      (okOr (mysqlAlterQuery "t" (addOpOf c7wcol))).data = true ∧
    seqContains ("DEFAULT " ++ "0").data
      (okOr (mysqlAlterQuery "t" (addOpOf c7wcol))).data = true ∧
    seqContains (" IS '" ++ rustReplace "x'y" "'" "''" ++ "'").data
      (secondStmt (alterStatements "postgresql" "t" (addOpOf c7wcol))).data = true :=
  c7_amended_comment_escaped_default_verbatim "t" c7wcol "x'y" "0" rfl rfl

end Recch

namespace Recch

/-- C6: a binary payload no longer than the 32-byte threshold renders as its
full hex with no truncation marker; a longer payload renders the first 32
bytes with the true byte length recorded; the unknown-type fallback uses a
distinct 16-byte threshold and a distinct `[BLOB:` framing, absent from the
dedicated binary rendering. -/
theorem c6_binary_preview_thresholds (v : List Nat) :
    (v.length ≤ 32 → binaryRender v = "0x" ++ hexOf v ∧
      seqContains "...".data (binaryRender v).data = false) ∧
    (32 < v.length → binaryRender v =
      "0x" ++ hexOf (v.take 32) ++ "... (" ++ toString v.length ++ " bytes)") ∧
    (v.length ≤ 16 → blobRender v = "[BLOB: 0x" ++ hexOf v ++ "]") ∧
    (16 < v.length → blobRender v = "[BLOB: 0x" ++ hexOf (v.take 16) ++ "..." ++ "]") ∧
    "[BLOB:".data.isPrefixOf (blobRender v).data = true ∧
    "[BLOB:".data.isPrefixOf (binaryRender v).data = false := by
  refine ⟨fun h => ⟨?_, ?_⟩, fun h => ?_, fun h => ?_, fun h => ?_, ?_, ?_⟩
  · have ht : v.take 32 = v := List.take_of_length_le h
    have hif : ¬ v.length > 32 := by omega
    apply String.ext
    simp [binaryRender, ht, hif, String.data_append]
  · have ht : v.take 32 = v := List.take_of_length_le h
    have hif : ¬ v.length > 32 := by omega
    cases hsc : seqContains "...".data (binaryRender v).data with
    | false => rfl
    | true =>
      exfalso
      have hdot : '.' ∈ (binaryRender v).data := mem_of_seqContains hsc (by decide)
      have hbd : (binaryRender v).data = "0x".data ++ (hexOf v).data := by
        simp [binaryRender, ht, hif, String.data_append]
      rw [hbd] at hdot
      rcases List.mem_append.mp hdot with hmem | hmem
      · revert hmem
        decide
      · exact dot_not_mem_hexOf v hmem
  · have hif : v.length > 32 := h
    apply String.ext
    simp [binaryRender, hif, String.data_append, List.append_assoc]
  · have ht : v.take 16 = v := List.take_of_length_le h
    have hif : ¬ v.length > 16 := by omega
    apply String.ext
    simp [blobRender, ht, hif, String.data_append]
  · have hif : v.length > 16 := h
    apply String.ext
    simp [blobRender, hif, String.data_append, List.append_assoc]
  · rw [List.isPrefixOf_iff_prefix]
    refine ⟨" 0x".data ++ ((hexOf (v.take 16)).data ++
      ((if v.length > 16 then "..." else "" : String).data ++ "]".data)), ?_⟩
    have hsplit : ("[BLOB: 0x" : String).data = "[BLOB:".data ++ " 0x".data := by decide
    simp [blobRender, String.data_append, List.append_assoc, hsplit]
  · cases hp : "[BLOB:".data.isPrefixOf (binaryRender v).data with
    | false => rfl
    | true =>
      exfalso
      rw [List.isPrefixOf_iff_prefix] at hp
      obtain ⟨t, ht2⟩ := hp
      have hbd : (binaryRender v).data = "0x".data ++ ((hexOf (v.take 32)).data ++
          (if v.length > 32 then "... (" ++ toString v.length ++ " bytes)" else "" : String).data) := by
        simp [binaryRender, String.data_append, List.append_assoc]
      rw [hbd] at ht2
      have h1 : ("[BLOB:" : String).data = '[' :: "BLOB:".data := by decide
      have h2 : ("0x" : String).data = '0' :: "x".data := by decide
      rw [h1, h2] at ht2
      have hh := congrArg List.head? ht2
      simp at hh

def c6short : List Nat := [0, 171]
def c6long : List Nat := List.replicate 33 7
def c6mid : List Nat := List.replicate 17 7

theorem c6_witness :
    binaryRender c6short = "0x" ++ hexOf c6short ∧
    binaryRender c6long =
      "0x" ++ hexOf (c6long.take 32) ++ "... (" ++ toString c6long.length ++ " bytes)" ∧
    blobRender c6short = "[BLOB: 0x" ++ hexOf c6short ++ "]" ∧
    blobRender c6mid = "[BLOB: 0x" ++ hexOf (c6mid.take 16) ++ "..." ++ "]" :=
  ⟨((c6_binary_preview_thresholds c6short).1 (by decide)).1,
    (c6_binary_preview_thresholds c6long).2.1 (by decide),
    (c6_binary_preview_thresholds c6short).2.2.1 (by decide),
    (c6_binary_preview_thresholds c6mid).2.2.2.1 (by decide)⟩

end Recch

namespace Recch

/-- C8: cell normalization is total — every column of every row yields exactly
one inserted value, for both engines — and a normalized cell is Null only
when some decoder of the tag's ordered fallback chain returned SQL NULL (or a
JSON null document) or every decoder of the chain failed; no per-cell failure
aborts the row or the result set. -/
theorem c8_normalization_total_and_null_policy :
    (∀ cols : List (String × String × NativeCell),
      (normalizeRowMySql cols).map Prod.fst = cols.map Prod.fst) ∧
    (∀ cols : List (String × String × NativeCell),
      (normalizeRowPg cols).map Prod.fst = cols.map Prod.fst) ∧
    (∀ (t : String) (c : NativeCell), normalizeMySql t c = Json.null →
      (∃ o ∈ chainMySql t c, o = Except.ok none) ∨
      (∀ o ∈ chainMySql t c, o = Except.error ())) ∧
    (∀ (t : String) (c : NativeCell), normalizePg t c = Json.null →
      (∃ o ∈ chainPg t c, o = Except.ok none) ∨
      (∀ o ∈ chainPg t c, o = Except.error ())) := by
  refine ⟨?_, ?_, ?_, ?_⟩
  · intro cols
    simp [normalizeRowMySql, List.map_map, Function.comp]
  · intro cols
    simp [normalizeRowPg, List.map_map, Function.comp]
  · intro t c h
    cases harm : mysqlArm t
    case boolArm =>
      simp only [normalizeMySql, harm] at h
      simp only [chainMySql, harm]
      rcases hb : c.asBool with e | v
      · right
        simp [slot, hb]
      · rcases v with _ | b
        · exact Or.inl ⟨Except.ok none, by simp [slot, hb], rfl⟩
        · simp [hb, getOr, optJson] at h
    case intArm =>
      simp only [normalizeMySql, harm] at h
      simp only [chainMySql, harm]
      rcases h1 : c.asI64 with e1 | v1
      · rcases h2 : c.asU64 with e2 | v2
        · rcases h3 : c.asI32 with e3 | v3
          · rcases h4 : c.asI8 with e4 | v4
            · rcases h5 : c.asString with e5 | v5
              · right
                simp [slot, h1, h2, h3, h4, h5]
              · simp only [h1, h2, h3, h4, h5] at h
                rcases v5 with _ | s
                · exact Or.inl ⟨Except.ok none, by simp [slot, h1, h2, h3, h4, h5], rfl⟩
                · simp [optJson] at h
            · simp only [h1, h2, h3, h4] at h
              rcases v4 with _ | n
              · exact Or.inl ⟨Except.ok none, by simp [slot, h1, h2, h3, h4], rfl⟩
              · simp [optJson] at h
          · simp only [h1, h2, h3] at h
            rcases v3 with _ | n
            · exact Or.inl ⟨Except.ok none, by simp [slot, h1, h2, h3], rfl⟩
            · simp [optJson] at h
        · simp only [h1, h2] at h
          rcases v2 with _ | n
          · exact Or.inl ⟨Except.ok none, by simp [slot, h1, h2], rfl⟩
          · simp [optJson] at h
      · simp only [h1] at h
        rcases v1 with _ | n
        · exact Or.inl ⟨Except.ok none, by simp [slot, h1], rfl⟩
        · simp [optJson] at h
    case floatArm =>
      simp only [normalizeMySql, harm] at h
      simp only [chainMySql, harm]
      rcases hf : c.asF64 with e | v
      · right
        simp [slot, hf]
      · rcases v with _ | q
        · exact Or.inl ⟨Except.ok none, by simp [slot, hf], rfl⟩
        · simp [hf, getOr, optJson] at h
    case bitArm =>
      simp only [normalizeMySql, harm] at h
      simp only [chainMySql, harm]
      rcases h1 : c.asU64 with e1 | v1
      · rcases h2 : c.asBytes with e2 | v2
        · right
          simp [slot, h1, h2]
        · simp only [h1, h2] at h
          rcases v2 with _ | bs
          · exact Or.inl ⟨Except.ok none, by simp [slot, h1, h2], rfl⟩
          · simp at h
      · simp only [h1] at h
        rcases v1 with _ | n
        · exact Or.inl ⟨Except.ok none, by simp [slot, h1], rfl⟩
        · simp [optJson] at h
    case jsonArm =>
      simp only [normalizeMySql, harm] at h
      simp only [chainMySql, harm]
      rcases hj : c.asJson with e | v
      · right
        simp [slotJ, hj]
      · rcases v with _ | j
        · exact Or.inl ⟨Except.ok none, by simp [slotJ, hj], rfl⟩
        · simp only [hj] at h
          subst h
          exact Or.inl ⟨Except.ok none, by simp [slotJ, hj], rfl⟩
    case tsArm =>
      simp only [normalizeMySql, harm] at h
      simp only [chainMySql, harm]
      rcases h1 : c.asDateTime with e1 | v1
      · rcases h2 : c.asString with e2 | v2
        · right
          simp [slot, h1, h2]
        · simp only [h1, h2] at h
          rcases v2 with _ | s
          · exact Or.inl ⟨Except.ok none, by simp [slot, h1, h2], rfl⟩
          · simp [optJson] at h
      · simp only [h1] at h
        rcases v1 with _ | s
        · exact Or.inl ⟨Except.ok none, by simp [slot, h1], rfl⟩
        · simp at h
    case dateArm =>
      simp only [normalizeMySql, harm] at h
      simp only [chainMySql, harm]
      rcases h1 : c.asDate with e1 | v1
      · right
        simp [slot, h1]
      · simp only [h1] at h
        rcases v1 with _ | s
        · exact Or.inl ⟨Except.ok none, by simp [slot, h1], rfl⟩
        · simp at h
    case timeArm =>
      simp only [normalizeMySql, harm] at h
      simp only [chainMySql, harm]
      rcases h1 : c.asTime with e1 | v1
      · right
        simp [slot, h1]
      · simp only [h1] at h
        rcases v1 with _ | s
        · exact Or.inl ⟨Except.ok none, by simp [slot, h1], rfl⟩
        · simp at h
    case yearArm =>
      simp only [normalizeMySql, harm] at h
      simp only [chainMySql, harm]
      rcases h1 : c.asI32 with e1 | v1
      · rcases h2 : c.asString with e2 | v2
        · right
          simp [slot, h1, h2]
        · simp only [h1, h2] at h
          rcases v2 with _ | s
          · exact Or.inl ⟨Except.ok none, by simp [slot, h1, h2], rfl⟩
          · simp [optJson] at h
      · simp only [h1] at h
        rcases v1 with _ | n
        · exact Or.inl ⟨Except.ok none, by simp [slot, h1], rfl⟩
        · simp at h
    case binArm =>
      simp only [normalizeMySql, harm] at h
      simp only [chainMySql, harm]
      rcases h1 : c.asBytes with e1 | v1
      · right
        simp [slot, h1]
      · simp only [h1] at h
        rcases v1 with _ | bs
        · exact Or.inl ⟨Except.ok none, by simp [slot, h1], rfl⟩
        · simp at h
    case otherArm =>
      simp only [normalizeMySql, harm] at h
      simp only [chainMySql, harm]
      rcases h1 : c.asString with e1 | v1
      · rcases h2 : c.asBytes with e2 | v2
        · right
          simp [slot, h1, h2]
        · simp only [h1, h2] at h
          rcases v2 with _ | bs
          · exact Or.inl ⟨Except.ok none, by simp [slot, h1, h2], rfl⟩
          · simp at h
      · simp only [h1] at h
        rcases v1 with _ | s
        · exact Or.inl ⟨Except.ok none, by simp [slot, h1], rfl⟩
        · simp [optJson] at h
  · intro t c h
    cases harm : pgArm t
    case boolArm =>
      simp only [normalizePg, harm] at h
      simp only [chainPg, harm]
      rcases hb : c.asBool with e | v
      · right
        simp [slot, hb]
      · rcases v with _ | b
        · exact Or.inl ⟨Except.ok none, by simp [slot, hb], rfl⟩
        · simp [hb, getOr, optJson] at h
    case intArm =>
      simp only [normalizePg, harm] at h
      simp only [chainPg, harm]
      rcases hb : c.asI64 with e | v
      · right
        simp [slot, hb]
      · rcases v with _ | n
        · exact Or.inl ⟨Except.ok none, by simp [slot, hb], rfl⟩
        · simp [hb, getOr, optJson] at h
    case floatArm =>
      simp only [normalizePg, harm] at h
      simp only [chainPg, harm]
      rcases hb : c.asF64 with e | v
      · right
        simp [slot, hb]
      · rcases v with _ | q
        · exact Or.inl ⟨Except.ok none, by simp [slot, hb], rfl⟩
        · simp [hb, getOr, optJson] at h
    case tsArm =>
      simp only [normalizePg, harm] at h
      simp only [chainPg, harm]
      rcases h1 : c.asString with e1 | v1
      · rcases h2 : c.asDateTime with e2 | v2
        · rcases h3 : c.asDateTimeUtc with e3 | v3
          · right
            simp [slot, h1, h2, h3]
          · simp only [h1, h2, h3] at h
            rcases v3 with _ | s
            · exact Or.inl ⟨Except.ok none, by simp [slot, h1, h2, h3], rfl⟩
            · simp [optJson] at h
        · simp only [h1, h2] at h
          rcases v2 with _ | s
          · exact Or.inl ⟨Except.ok none, by simp [slot, h1, h2], rfl⟩
          · simp [optJson] at h
      · simp only [h1] at h
        rcases v1 with _ | s
        · exact Or.inl ⟨Except.ok none, by simp [slot, h1], rfl⟩
        · simp [optJson] at h
    case dateArm =>
      simp only [normalizePg, harm] at h
      simp only [chainPg, harm]
      rcases h1 : c.asString with e1 | v1
      · rcases h2 : c.asDate with e2 | v2
        · right
          simp [slot, h1, h2]
        · simp only [h1, h2] at h
          rcases v2 with _ | s
          · exact Or.inl ⟨Except.ok none, by simp [slot, h1, h2], rfl⟩
          · simp [optJson] at h
      · simp only [h1] at h
        rcases v1 with _ | s
        · exact Or.inl ⟨Except.ok none, by simp [slot, h1], rfl⟩
        · simp [optJson] at h
    case timeArm =>
      simp only [normalizePg, harm] at h
      simp only [chainPg, harm]
      rcases h1 : c.asString with e1 | v1
      · rcases h2 : c.asTime with e2 | v2
        · right
          simp [slot, h1, h2]
        · simp only [h1, h2] at h
          rcases v2 with _ | s
          · exact Or.inl ⟨Except.ok none, by simp [slot, h1, h2], rfl⟩
          · simp [optJson] at h
      · simp only [h1] at h
        rcases v1 with _ | s
        · exact Or.inl ⟨Except.ok none, by simp [slot, h1], rfl⟩
        · simp [optJson] at h
    case jsonArm =>
      simp only [normalizePg, harm] at h
      simp only [chainPg, harm]
      rcases hj : c.asJson with e | v
      · rcases h2 : c.asString with e2 | v2
        · right
          simp [slotJ, slot, hj, h2]
        · simp only [hj, h2] at h
          rcases v2 with _ | s
          · exact Or.inl ⟨Except.ok none, by simp [slotJ, slot, hj, h2], rfl⟩
          · simp [optJson] at h
      · rcases v with _ | j
        · exact Or.inl ⟨Except.ok none, by simp [slotJ, hj], rfl⟩
        · simp only [hj] at h
          subst h
          exact Or.inl ⟨Except.ok none, by simp [slotJ, hj], rfl⟩
    case binArm =>
      simp only [normalizePg, harm] at h
      simp only [chainPg, harm]
      rcases h1 : c.asBytes with e1 | v1
      · right
        simp [slot, h1]
      · simp only [h1] at h
        rcases v1 with _ | bs
        · exact Or.inl ⟨Except.ok none, by simp [slot, h1], rfl⟩
        · simp at h
    case otherArm =>
      simp only [normalizePg, harm] at h
      simp only [chainPg, harm]
      rcases h1 : c.asString with e1 | v1
      · rcases h2 : c.asBytes with e2 | v2
        · right
          simp [slot, h1, h2]
        · simp only [h1, h2] at h
          rcases v2 with _ | bs
          · exact Or.inl ⟨Except.ok none, by simp [slot, h1, h2], rfl⟩
          · simp at h
      · simp only [h1] at h
        rcases v1 with _ | s
        · exact Or.inl ⟨Except.ok none, by simp [slot, h1], rfl⟩
        · simp [optJson] at h

theorem c8_witness :
    ((∃ o ∈ chainMySql "UUID" allFailCell, o = Except.ok none) ∨
      (∀ o ∈ chainMySql "UUID" allFailCell, o = Except.error ())) ∧
    ((∃ o ∈ chainPg "UUID" allFailCell, o = Except.ok none) ∨
      (∀ o ∈ chainPg "UUID" allFailCell, o = Except.error ())) :=
  ⟨c8_normalization_total_and_null_policy.2.2.1 "UUID" allFailCell (by decide),
    c8_normalization_total_and_null_policy.2.2.2 "UUID" allFailCell (by decide)⟩

end Recch
